import Mathlib

/-!
Verification of the compute-instance lifecycle orchestrator
(`pod_manager.py`, class `PodManager`).

The Python methods are shallowly embedded as pure Lean functions.
HTTP traffic is abstracted by environments that record the responses the
provider would give: a status-poll sequence, the HTTP codes answered to the
start/stop/create mutations, and the GPU catalogue returned by the GraphQL
query.  Every mutation request actually issued by an operation is collected
in an explicit trace (`List ApiCall`), so "issues no mutation call" is the
statement that the trace is empty.

Time is modelled as in the source loop `wait_for_status`: the only sleep is
the fixed 5-second `time.sleep(5)` between polls, so elapsed time advances
by 5 per iteration and polls themselves are instantaneous.  Money
(spot prices, the `MAX_GPU_PRICE` ceiling) is modelled by `ℚ`.
-/

namespace Ashoka

/-- Raw provider status string "RUNNING". -/
def RUNNING : String := "RUNNING"

/-- Raw provider status string "STOPPED". -/
def STOPPED : String := "STOPPED"

/-- Raw provider status string "EXITED". -/
def EXITED : String := "EXITED"

/-- Raw provider status string "FAILED". -/
def FAILED : String := "FAILED"

/-- Raw provider status string "ERROR". -/
def ERROR : String := "ERROR"

/-- Response of a single GET on the pod resource: HTTP status code and the
JSON field `desiredStatus` (absent field modelled as `none`). -/
structure ApiResponse where
  statusCode : Nat
  desiredStatus : Option String
deriving DecidableEq

/-- Embedding of `PodManager.get_pod_status`: on HTTP 200 return the raw
`desiredStatus` string unchanged, otherwise (non-200, or an exception,
both of which the source turns into `None`) return `none`. -/
def get_pod_status (resp : ApiResponse) : Option String :=
  if resp.statusCode = 200 then resp.desiredStatus else none

/-- Python membership test `status in list_of_strings` where `status` may be
`None`: `None` is never equal to a string, so it yields `False`. -/
def statusMem (st : Option String) (l : List String) : Bool :=
  match st with
  | some s => l.contains s
  | none => false

/-- Loop body of `PodManager.wait_for_status`.  `i` is the index of the next
poll (the poll at iteration `i` happens at elapsed time `5 * i`); `iters` is
the number of loop iterations still allowed by the `while` guard
`time.time() - start_time < timeout`.  Returns
(result, number of polls issued, elapsed time at return). -/
def waitLoop (polls : Nat → Option String) (targets : List String) :
    Nat → Nat → Bool × Nat × Nat
  | i, 0 => (false, i, 5 * i)
  | i, iters + 1 =>
    if statusMem (polls i) targets then (true, i + 1, 5 * i)
    else if statusMem (polls i) [FAILED, ERROR] then (false, i + 1, 5 * i)
    else waitLoop polls targets (i + 1) iters

/-- Embedding of `PodManager.wait_for_status`.  With polls instantaneous and
`time.sleep(5)` the only time spent, the guard `elapsed < timeout` admits
exactly the iterations `i` with `5 * i < timeout`, i.e. `(timeout + 4) / 5`
of them.  `polls j` is the result of the j-th `get_pod_status` call. -/
def wait_for_status (polls : Nat → Option String) (targets : List String)
    (timeout : Nat) : Bool × Nat × Nat :=
  waitLoop polls targets 0 ((timeout + 4) / 5)

/-- A mutation request sent to the provider (status polls are not mutations
and are accounted separately). -/
inductive ApiCall where
  | start : ApiCall
  | stop : ApiCall
  | create : List String → ApiCall
  | delete : ApiCall
deriving DecidableEq

/-- Remote environment for the lifecycle operations: `statusSeq k` is the
provider response to the k-th status poll of the run, `startCode` and
`stopCode` the HTTP codes answered to POST `{id}/start` and `{id}/stop`. -/
structure Env where
  statusSeq : Nat → ApiResponse
  startCode : Nat
  stopCode : Nat

/-- Result of the k-th `get_pod_status` call of a run. -/
def pollStatus (env : Env) (k : Nat) : Option String :=
  get_pod_status (env.statusSeq k)

/-- One element of the `gpuTypes` GraphQL answer. -/
structure RawGpu where
  id : String
  displayName : String
  communitySpotPrice : Option ℚ
  secureSpotPrice : Option ℚ
deriving DecidableEq

/-- Entry of the `affordable_gpus` list built by `deploy_pod`. -/
structure AffordableGpu where
  id : String
  name : String
  price : ℚ
deriving DecidableEq

/-- The `min_price` computation of `deploy_pod`: prefer
`communitySpotPrice`, else `secureSpotPrice`, else unpriced (`none`). -/
def effectivePrice (g : RawGpu) : Option ℚ :=
  match g.communitySpotPrice with
  | some p => some p
  | none => g.secureSpotPrice

/-- The filtering loop of `deploy_pod`: keep a gpu iff its effective price
exists and is at most `maxPrice`, recording id, display name and price.
`List.filterMap` preserves the catalogue order. -/
def affordableGpus (gpus : List RawGpu) (maxPrice : ℚ) : List AffordableGpu :=
  gpus.filterMap fun g =>
    match effectivePrice g with
    | some p => if p ≤ maxPrice then some ⟨g.id, g.displayName, p⟩ else none
    | none => none

/-- Comparison key of `affordable_gpus.sort(key=lambda x: x['price'])`. -/
def priceLe (x y : AffordableGpu) : Prop :=
  x.price ≤ y.price

instance : DecidableRel priceLe :=
  fun x y => inferInstanceAs (Decidable (x.price ≤ y.price))

instance : IsTotal AffordableGpu priceLe :=
  ⟨fun x y => le_total x.price y.price⟩

instance : IsTrans AffordableGpu priceLe :=
  ⟨fun _ _ _ h h₂ => le_trans h h₂⟩

/-- The candidate selection of `deploy_pod`: filter by affordability, then
sort ascending by price.  Python's `list.sort` is a stable sort, modelled by
`List.insertionSort`, which is stable for the total preorder `priceLe`. -/
def selectCandidates (gpus : List RawGpu) (maxPrice : ℚ) : List AffordableGpu :=
  List.insertionSort priceLe (affordableGpus gpus maxPrice)

/-- Remote environment for `deploy_pod`: whether the GraphQL answer carried
an `errors` field, the catalogue it carried, and the HTTP code and `id`
field answered to the single POST creating the pod. -/
structure DeployEnv where
  graphqlErrors : Bool
  gpuTypes : List RawGpu
  createCode : Nat
  createdId : Option String

/-- Embedding of `PodManager.deploy_pod`.  The source filters the catalogue
by `MAX_GPU_PRICE`, aborts if nothing is affordable, sorts by price, takes
the five cheapest ids and sends them together in the `gpuTypeIds` field of
one POST to `/v2/pods`; it succeeds iff that POST answers 200 with an `id`.
(The source sorts in place after the emptiness check; sorting the empty
list is the identity, so using `selectCandidates` is the same function.) -/
def deploy_pod (denv : DeployEnv) (maxPrice : ℚ) : Bool × List ApiCall :=
  if denv.graphqlErrors then (false, [])
  else
    let affordable := affordableGpus denv.gpuTypes maxPrice
    if affordable.isEmpty then (false, [])
    else
      let gpuTypeIds := ((selectCandidates denv.gpuTypes maxPrice).take 5).map
        fun g => g.id
      if denv.createCode = 200 then
        match denv.createdId with
        | some _ => (true, [ApiCall.create gpuTypeIds])
        | none => (false, [ApiCall.create gpuTypeIds])
      else (false, [ApiCall.create gpuTypeIds])

/-- The part of `PodManager.start_pod` from the `POST {id}/start` request
on: send start, on a non-2xx answer fail (or fall back to `deploy_pod` when
`deploy_new_if_needed`), otherwise wait for RUNNING with the default
300-second timeout, falling back to `deploy_pod` on a failed wait when
requested.  `k` is the index of the next status poll. -/
def startMutation (env : Env) (denv : DeployEnv) (maxPrice : ℚ)
    (deployNew : Bool) (k : Nat) : Bool × Nat × List ApiCall :=
  if env.startCode = 200 ∨ env.startCode = 202 then
    let w := wait_for_status (fun i => pollStatus env (k + i)) [RUNNING] 300
    if w.1 then (true, k + w.2.1, [ApiCall.start])
    else if deployNew then
      let d := deploy_pod denv maxPrice
      (d.1, k + w.2.1, ApiCall.start :: d.2)
    else (false, k + w.2.1, [ApiCall.start])
  else if deployNew then
    let d := deploy_pod denv maxPrice
    (d.1, k, ApiCall.start :: d.2)
  else (false, k, [ApiCall.start])

/-- Embedding of `PodManager.start_pod`: read the status; RUNNING is an
idempotent no-op; a state outside {EXITED, STOPPED, None} first waits for a
stable state (re-checking for RUNNING afterwards); then the start mutation
is issued (see `startMutation`). -/
def start_pod (env : Env) (denv : DeployEnv) (maxPrice : ℚ)
    (deployNew : Bool) (k : Nat) : Bool × Nat × List ApiCall :=
  let current := pollStatus env k
  if current = some RUNNING then (true, k + 1, [])
  else if ¬ (current = some EXITED ∨ current = some STOPPED ∨ current = none) then
    let w := wait_for_status (fun i => pollStatus env (k + 1 + i))
      [EXITED, STOPPED, RUNNING] 300
    if w.1 then
      if pollStatus env (k + 1 + w.2.1) = some RUNNING then
        (true, k + 1 + w.2.1 + 1, [])
      else startMutation env denv maxPrice deployNew (k + 1 + w.2.1 + 1)
    else (false, k + 1 + w.2.1, [])
  else startMutation env denv maxPrice deployNew (k + 1)

/-- The part of `PodManager.stop_pod` from the `POST {id}/stop` request on:
send stop, fail on a non-2xx answer, otherwise wait for EXITED/STOPPED; a
successful wait issues one more `get_pod_status` (printed as the final
status) and succeeds. -/
def stopMutation (env : Env) (k : Nat) : Bool × Nat × List ApiCall :=
  if env.stopCode = 200 ∨ env.stopCode = 202 then
    let w := wait_for_status (fun i => pollStatus env (k + i)) [EXITED, STOPPED] 300
    if w.1 then (true, k + w.2.1 + 1, [ApiCall.stop])
    else (false, k + w.2.1, [ApiCall.stop])
  else (false, k, [ApiCall.stop])

/-- Embedding of `PodManager.stop_pod`: read the status; EXITED/STOPPED is
an idempotent no-op; any other non-RUNNING state (including `None`) first
waits for a stable state, re-checking for EXITED/STOPPED afterwards; then
the stop mutation is issued (see `stopMutation`). -/
def stop_pod (env : Env) (k : Nat) : Bool × Nat × List ApiCall :=
  let current := pollStatus env k
  if current = some EXITED ∨ current = some STOPPED then (true, k + 1, [])
  else if ¬ current = some RUNNING then
    let w := wait_for_status (fun i => pollStatus env (k + 1 + i))
      [EXITED, STOPPED, RUNNING] 300
    if w.1 then
      let current2 := pollStatus env (k + 1 + w.2.1)
      if current2 = some EXITED ∨ current2 = some STOPPED then
        (true, k + 1 + w.2.1 + 1, [])
      else stopMutation env (k + 1 + w.2.1 + 1)
    else (false, k + 1 + w.2.1, [])
  else stopMutation env (k + 1)

/-- Embedding of `PodManager.restart_pod`: `stop_pod`, and only if it
succeeded, `start_pod` (the `time.sleep(5)` in between affects no modelled
observable).  The traces of the two phases are concatenated. -/
def restart_pod (env : Env) (denv : DeployEnv) (maxPrice : ℚ)
    (deployNew : Bool) (k : Nat) : Bool × Nat × List ApiCall :=
  let s := stop_pod env k
  if s.1 then
    let r := start_pod env denv maxPrice deployNew s.2.1
    (r.1, r.2.1, s.2.2 ++ r.2.2)
  else (false, s.2.1, s.2.2)

/-- Embedding of `PodManager.status_pod`: read the status, print it (second
component; `none` prints as `None`), and return `True` unconditionally. -/
def status_pod (env : Env) (k : Nat) : Bool × Option String :=
  (true, pollStatus env k)

/-- The exit-code computation of `main`: `sys.exit(0 if success else 1)`. -/
def exitCode (success : Bool) : Nat :=
  if success then 0 else 1

/-! ### General facts about the polling loop -/

/-- The elapsed time at which `waitLoop` returns is at most the time of the
first iteration the `while` guard would refuse. -/
theorem waitLoop_elapsed_le (polls : Nat → Option String) (targets : List String) :
    ∀ (iters i : Nat), (waitLoop polls targets i iters).2.2 ≤ 5 * (i + iters) := by
  intro iters
  induction iters with
  | zero => intro i; simp [waitLoop]
  | succ n ih =>
    intro i
    simp only [waitLoop]
    split
    · simp only; omega
    · split
      · simp only; omega
      · have h := ih (i + 1)
        omega

/-- If no poll ever lands in `targets`, the loop cannot return `true`. -/
theorem waitLoop_no_target (polls : Nat → Option String) (targets : List String)
    (h : ∀ j, statusMem (polls j) targets = false) :
    ∀ (iters i : Nat), (waitLoop polls targets i iters).1 = false := by
  intro iters
  induction iters with
  | zero => intro i; simp [waitLoop]
  | succ n ih =>
    intro i
    simp only [waitLoop, h i, Bool.false_eq_true, if_false]
    split
    · rfl
    · exact ih (i + 1)

/-- If every poll is neither a target nor FAILED/ERROR, the loop runs the
full iteration budget and times out. -/
theorem waitLoop_all_pass (polls : Nat → Option String) (targets : List String)
    (h : ∀ j, statusMem (polls j) targets = false ∧
      statusMem (polls j) [FAILED, ERROR] = false) :
    ∀ (iters i : Nat), waitLoop polls targets i iters = (false, i + iters, 5 * (i + iters)) := by
  intro iters
  induction iters with
  | zero => intro i; simp [waitLoop]
  | succ n ih =>
    intro i
    simp only [waitLoop, (h i).1, (h i).2, Bool.false_eq_true, if_false]
    rw [ih (i + 1)]
    have harith : i + 1 + n = i + (n + 1) := by omega
    rw [harith]

/-- If the polls pass through up to index `n`, the poll at `n` reads ERROR,
and ERROR is not itself a target, the loop stops right there: result
`false`, exactly `n + 1` polls issued, elapsed time `5 * n`. -/
theorem waitLoop_error_at (polls : Nat → Option String) (targets : List String) :
    ∀ (n iters i : Nat),
      (∀ j, j < n → statusMem (polls (i + j)) targets = false ∧
        statusMem (polls (i + j)) [FAILED, ERROR] = false) →
      polls (i + n) = some ERROR → targets.contains ERROR = false → n < iters →
      waitLoop polls targets i iters = (false, i + n + 1, 5 * (i + n)) := by
  intro n
  induction n with
  | zero =>
    intro iters i hpass herr htgt hlt
    obtain ⟨m, rfl⟩ : ∃ m, iters = m + 1 := ⟨iters - 1, by omega⟩
    have hp : polls i = some ERROR := by simpa using herr
    have h1 : statusMem (polls i) targets = false := by
      rw [hp]; simpa [statusMem] using htgt
    have h2 : statusMem (polls i) [FAILED, ERROR] = true := by
      rw [hp]; decide
    simp [waitLoop, h1, h2]
  | succ m ih =>
    intro iters i hpass herr htgt hlt
    obtain ⟨t, rfl⟩ : ∃ t, iters = t + 1 := ⟨iters - 1, by omega⟩
    have h0 := hpass 0 (Nat.succ_pos m)
    simp only [Nat.add_zero] at h0
    simp only [waitLoop, h0.1, h0.2, if_false, Bool.false_eq_true]
    have hrec := ih t (i + 1)
      (fun j hj => by
        have := hpass (j + 1) (by omega)
        simpa [Nat.add_assoc, Nat.add_comm 1 j] using this)
      (by simpa [Nat.add_assoc, Nat.add_comm 1 m] using herr)
      htgt (by omega)
    rw [hrec]
    have harith1 : i + 1 + m = i + (m + 1) := by omega
    rw [harith1]

/-! ### Stability of the price sort

A sort is stable iff for every key value the sorted list restricted to that
key equals the input restricted to that key.  We prove this characterisation
for `List.insertionSort priceLe`, which models Python's stable
`list.sort(key=...)`. -/

/-- Inserting `a` commutes with restriction to one price: all elements
passed over by `orderedInsert` have price strictly below `a.price`. -/
theorem filter_orderedInsert (p : ℚ) (a : AffordableGpu) (l : List AffordableGpu) :
    (List.orderedInsert priceLe a l).filter (fun x => decide (x.price = p)) =
      if a.price = p then a :: l.filter (fun x => decide (x.price = p))
      else l.filter (fun x => decide (x.price = p)) := by
  induction l with
  | nil =>
    by_cases hap : a.price = p <;> simp [List.orderedInsert, List.filter, hap]
  | cons b t ih =>
    simp only [List.orderedInsert]
    by_cases hab : priceLe a b
    · rw [if_pos hab]
      by_cases hap : a.price = p <;> simp [List.filter_cons, hap]
    · rw [if_neg hab]
      have hba : b.price < a.price := lt_of_not_le hab
      by_cases hap : a.price = p
      · have hbp : ¬ b.price = p := by rw [← hap]; exact ne_of_lt hba
        simp [List.filter_cons, hbp, ih, hap]
      · simp [List.filter_cons, ih, hap]

/-- The insertion sort by price is stable: restricting to any single price
value gives back the input restricted to that price, in its original
order. -/
theorem filter_insertionSort (p : ℚ) (l : List AffordableGpu) :
    (List.insertionSort priceLe l).filter (fun x => decide (x.price = p)) =
      l.filter (fun x => decide (x.price = p)) := by
  induction l with
  | nil => rfl
  | cons a t ih =>
    simp only [List.insertionSort]
    rw [filter_orderedInsert]
    by_cases hap : a.price = p <;> simp [List.filter_cons, hap, ih]

/-! ### Trace shapes of the lifecycle operations -/

/-- The stop-mutation phase sends exactly the one stop request. -/
theorem stopMutation_trace (env : Env) (k : Nat) :
    (stopMutation env k).2.2 = [ApiCall.stop] := by
  simp only [stopMutation]
  split
  · split <;> rfl
  · rfl

/-- A `stop_pod` run either mutates nothing or sends exactly one stop
request; in particular it never sends a start or create request. -/
theorem stop_pod_trace (env : Env) (k : Nat) :
    (stop_pod env k).2.2 = [] ∨ (stop_pod env k).2.2 = [ApiCall.stop] := by
  simp only [stop_pod]
  split
  · exact Or.inl rfl
  · split
    · split
      · split
        · exact Or.inl rfl
        · exact Or.inr (stopMutation_trace _ _)
      · exact Or.inl rfl
    · exact Or.inr (stopMutation_trace _ _)

/-- The mutation trace of `deploy_pod` is empty when the catalogue query
failed or nothing is affordable, and otherwise consists of the single
create request carrying the five cheapest affordable GPU ids. -/
theorem deploy_pod_trace (denv : DeployEnv) (maxPrice : ℚ) :
    (deploy_pod denv maxPrice).2 =
      if denv.graphqlErrors then []
      else if (affordableGpus denv.gpuTypes maxPrice).isEmpty then []
      else [ApiCall.create (((selectCandidates denv.gpuTypes maxPrice).take 5).map
        fun g => g.id)] := by
  simp only [deploy_pod]
  split
  · rfl
  · split
    · rfl
    · split
      · split <;> rfl
      · rfl

/-! ### Concrete environments used as test inputs -/

/-- Catalogue entry priced 0.50 (community). -/
def catA : RawGpu := ⟨"gpuA", "A", some 50, none⟩

/-- Catalogue entry priced 0.25 (community). -/
def catB : RawGpu := ⟨"gpuB", "B", some 25, none⟩

/-- Catalogue entry priced 0.20 (secure only). -/
def catC : RawGpu := ⟨"gpuC", "C", none, some 20⟩

/-- Deploy environment: three-GPU catalogue, creation answered 500. -/
def denvFail : DeployEnv := ⟨false, [catA, catB, catC], 500, none⟩

/-- Deploy environment: one-GPU catalogue, creation succeeds. -/
def denvOk : DeployEnv := ⟨false, [⟨"g1", "G1", some 10, none⟩], 200, some ("pod1")⟩

/-- Deploy environment with an empty catalogue (never used for creation). -/
def denvNone : DeployEnv := ⟨false, [], 500, none⟩

/-- Remote pod that reports RUNNING on every poll. -/
def envRunning : Env := ⟨fun _ => ⟨200, some RUNNING⟩, 200, 200⟩

/-- Remote pod whose GET always answers 404: every status read is `none`. -/
def envAbsent : Env := ⟨fun _ => ⟨404, none⟩, 200, 200⟩

/-- Remote pod that reports STOPPED on every poll. -/
def envStopped : Env := ⟨fun _ => ⟨200, some STOPPED⟩, 200, 200⟩

/-- Remote pod STOPPED for the first two polls, RUNNING afterwards (the
restart scenario: stopped pod, start command takes effect). -/
def envStopThenRun : Env :=
  ⟨fun n => if n < 2 then ⟨200, some STOPPED⟩ else ⟨200, some RUNNING⟩, 200, 200⟩

/-- Poll sequence constantly STOPPED. -/
def pollsStopped : Nat → Option String := fun _ => some STOPPED

/-- Poll sequence constantly ERROR. -/
def pollsError : Nat → Option String := fun _ => some ERROR

/-! ### Claims -/

/-- C2: for every catalogue and every affordability ceiling P, the candidate
selection performed by deploy returns only offerings whose effective price
(community spot price if present, else secure spot price; offerings with
neither are excluded) is at most P, sorted non-decreasing by effective
price with ties kept in catalogue order (stable sort). -/
theorem claim_C2 (gpus : List RawGpu) (P : ℚ) :
    (∀ x, x ∈ selectCandidates gpus P →
      x.price ≤ P ∧ ∃ g, g ∈ gpus ∧ g.id = x.id ∧ effectivePrice g = some x.price) ∧
    List.Sorted priceLe (selectCandidates gpus P) ∧
    (∀ p : ℚ, (selectCandidates gpus P).filter (fun x => decide (x.price = p)) =
      (affordableGpus gpus P).filter (fun x => decide (x.price = p))) := by
  refine ⟨?_, ?_, ?_⟩
  · intro x hx
    rw [selectCandidates] at hx
    have hx2 : x ∈ affordableGpus gpus P :=
      (List.perm_insertionSort priceLe (affordableGpus gpus P)).mem_iff.mp hx
    rw [affordableGpus] at hx2
    obtain ⟨g, hg, hfg⟩ := List.mem_filterMap.mp hx2
    cases hcase : effectivePrice g with
    | none => rw [hcase] at hfg; exact absurd hfg (by simp)
    | some q =>
      rw [hcase] at hfg
      dsimp only at hfg
      by_cases hq : q ≤ P
      · rw [if_pos hq] at hfg
        obtain rfl := Option.some.inj hfg
        exact ⟨hq, g, hg, rfl, hcase⟩
      · rw [if_neg hq] at hfg
        exact absurd hfg (by simp)
  · exact List.sorted_insertionSort priceLe (affordableGpus gpus P)
  · intro p
    exact filter_insertionSort p (affordableGpus gpus P)

/-- Witness for C2 at the three-entry catalogue with ceiling 30: the entry
for gpuC is an affordable candidate, the output is sorted, and the
restriction at price 20 agrees with the unsorted affordable list. -/
theorem claim_C2_witness :
    (⟨"gpuC", "C", (20 : ℚ)⟩ : AffordableGpu).price ≤ 30 ∧
    List.Sorted priceLe (selectCandidates [catA, catB, catC] 30) ∧
    (selectCandidates [catA, catB, catC] 30).filter (fun x => decide (x.price = 20)) =
      (affordableGpus [catA, catB, catC] 30).filter (fun x => decide (x.price = 20)) :=
  ⟨((claim_C2 [catA, catB, catC] 30).1 ⟨"gpuC", "C", (20 : ℚ)⟩ (by decide)).1,
    (claim_C2 [catA, catB, catC] 30).2.1,
    (claim_C2 [catA, catB, catC] 30).2.2 20⟩

/-- C9: during deploy only the first five (or fewer) cheapest affordable
offerings are used, all of their GPU ids are submitted together in a single
create request (the gpuTypeIds field of one POST), and deploy issues at
most one creation request per invocation, whatever the outcome. -/
theorem claim_C9 (denv : DeployEnv) (P : ℚ) :
    ((deploy_pod denv P).2 = [] ∨
      (deploy_pod denv P).2 =
        [ApiCall.create (((selectCandidates denv.gpuTypes P).take 5).map
          fun g => g.id)]) ∧
    (deploy_pod denv P).2.length ≤ 1 ∧
    ((selectCandidates denv.gpuTypes P).take 5).length ≤ 5 := by
  have h := deploy_pod_trace denv P
  refine ⟨?_, ?_, ?_⟩
  · rw [h]
    split
    · exact Or.inl rfl
    · split
      · exact Or.inl rfl
      · exact Or.inr rfl
  · rw [h]
    split
    · simp
    · split <;> simp
  · simp [List.length_take]

/-- C1 counterexample: with the catalogue {A: 50, B: 25, C: 20 secure},
ceiling 30 (affordable candidates C then B) and a creation endpoint that
fails, `deploy_pod` issues exactly ONE create request, carrying both
candidate ids together, and stops.  The claimed per-candidate iteration
would require a first request carrying only gpuC and, after the recoverable
failure, a second request for gpuB; no second request exists. -/
theorem claim_C1_counterexample :
    deploy_pod denvFail 30 = (false, [ApiCall.create [("gpuC" : String), "gpuB"]]) ∧
    (deploy_pod denvFail 30).2.length = 1 := by
  constructor <;> rfl

/-- C1 amended: during deploy, creation is attempted in one shot: whenever
the catalogue query succeeded and some candidate is affordable, deploy
issues a single create request carrying the GPU ids of the up-to-five
cheapest candidates together; if that single request fails (non-200 answer,
or an answer without a pod id), deploy returns failure and no pod handle is
produced; if it answers 200 with an id, deploy returns success. -/
theorem claim_C1_amended (denv : DeployEnv) (P : ℚ)
    (hge : denv.graphqlErrors = false)
    (hne : (affordableGpus denv.gpuTypes P).isEmpty = false) :
    (deploy_pod denv P).2 =
      [ApiCall.create (((selectCandidates denv.gpuTypes P).take 5).map
        fun g => g.id)] ∧
    (¬ (denv.createCode = 200 ∧ denv.createdId ≠ none) →
      (deploy_pod denv P).1 = false) ∧
    ((denv.createCode = 200 ∧ denv.createdId ≠ none) →
      (deploy_pod denv P).1 = true) := by
  refine ⟨?_, ?_, ?_⟩
  · rw [deploy_pod_trace, hge, hne]
    simp
  · intro hfail
    simp only [deploy_pod, hge, hne, Bool.false_eq_true, if_false]
    split
    · rename_i hc
      cases hid : denv.createdId with
      | none => simp
      | some v => exact absurd ⟨hc, by simp [hid]⟩ hfail
    · rfl
  · rintro ⟨hc, hid⟩
    simp only [deploy_pod, hge, hne, Bool.false_eq_true, if_false, if_pos hc]
    cases hcase : denv.createdId with
    | none => exact absurd hcase hid
    | some v => rfl

/-- Witness for the amended C1 at the failing concrete environment. -/
theorem claim_C1_witness :
    (deploy_pod denvFail 30).2 =
      [ApiCall.create (((selectCandidates denvFail.gpuTypes 30).take 5).map
        fun g => g.id)] ∧
    (deploy_pod denvFail 30).1 = false :=
  ⟨(claim_C1_amended denvFail 30 rfl (by decide)).1,
    (claim_C1_amended denvFail 30 rfl (by decide)).2.1 (by decide)⟩

/-- C3: for every pod whose current status reads RUNNING, start returns
success after that single status read and issues no mutation call (the
trace of start, stop, create and delete requests is empty), so the remote
instance set is untouched. -/
theorem claim_C3 (env : Env) (denv : DeployEnv) (P : ℚ) (dn : Bool) (k : Nat)
    (h : pollStatus env k = some RUNNING) :
    start_pod env denv P dn k = (true, k + 1, ([] : List ApiCall)) := by
  simp [start_pod, h]

/-- Witness for C3: a pod answering RUNNING. -/
theorem claim_C3_witness :
    start_pod envRunning denvNone 30 false 0 = (true, 1, ([] : List ApiCall)) :=
  claim_C3 envRunning denvNone 30 false 0 rfl

/-- C4 counterexample: on an absent pod (every GET answers 404, so every
status read is `none`), `stop_pod` issues no mutation call but returns
FAILURE, not success: the `None` status is treated as an unexpected state,
the stabilisation wait polls for the full 300-second timeout (one initial
poll plus 60 wait polls) and the operation gives up.  The claim asserts
success for the absent case. -/
theorem claim_C4_counterexample :
    stop_pod envAbsent 0 = ((false : Bool), 61, ([] : List ApiCall)) := by
  rfl

/-- C4 amended: stop on a pod already reading EXITED or STOPPED returns
success after the single status read with no mutation call; stop on an
absent pod (every status read `none`) also issues no mutation call, but
returns failure after one status read plus the 60 polls of the timed-out
stabilisation wait. -/
theorem claim_C4_amended :
    (∀ env k, (pollStatus env k = some EXITED ∨ pollStatus env k = some STOPPED) →
      stop_pod env k = (true, k + 1, ([] : List ApiCall))) ∧
    (∀ env k, (∀ i, pollStatus env i = none) →
      stop_pod env k = ((false : Bool), k + 61, ([] : List ApiCall))) := by
  constructor
  · intro env k h
    simp only [stop_pod]
    rw [if_pos h]
  · intro env k h
    have hw : wait_for_status (fun i => pollStatus env (k + 1 + i))
        [EXITED, STOPPED, RUNNING] 300 = (false, 60, 300) := by
      unfold wait_for_status
      have hall := waitLoop_all_pass (fun i => pollStatus env (k + 1 + i))
        [EXITED, STOPPED, RUNNING]
        (fun j => by simp [h (k + 1 + j), statusMem]) 60 0
      simpa using hall
    simp [stop_pod, h k, hw]

/-- Witness for the amended C4: one already-stopped pod, one absent pod. -/
theorem claim_C4_witness :
    stop_pod envStopped 0 = (true, 1, ([] : List ApiCall)) ∧
    stop_pod envAbsent 5 = ((false : Bool), 66, ([] : List ApiCall)) :=
  ⟨claim_C4_amended.1 envStopped 0 (Or.inr rfl),
    claim_C4_amended.2 envAbsent 5 (fun _ => rfl)⟩

/-- C5: for every timeout T and every poll sequence — including a remote
that never reaches a target status — `wait_for_status` terminates (it is a
total function) and returns at an elapsed time strictly below T plus one
5-second poll interval; and whenever no poll ever observes a target status
the result is `false`. -/
theorem claim_C5 (polls : Nat → Option String) (targets : List String) (T : Nat) :
    (wait_for_status polls targets T).2.2 < T + 5 ∧
    ((∀ j, statusMem (polls j) targets = false) →
      (wait_for_status polls targets T).1 = false) := by
  constructor
  · have h1 := waitLoop_elapsed_le polls targets ((T + 4) / 5) 0
    have h2 := Nat.div_mul_le_self (T + 4) 5
    unfold wait_for_status
    omega
  · intro h
    exact waitLoop_no_target polls targets h ((T + 4) / 5) 0

/-- Witness for C5: a remote stuck on STOPPED while RUNNING is awaited,
timeout 300: the wait returns false at elapsed time 300 < 305. -/
theorem claim_C5_witness :
    (wait_for_status pollsStopped [RUNNING] 300).2.2 < 305 ∧
    (wait_for_status pollsStopped [RUNNING] 300).1 = false :=
  ⟨(claim_C5 pollsStopped [RUNNING] 300).1,
    (claim_C5 pollsStopped [RUNNING] 300).2 (fun _ => rfl)⟩

/-- C6 counterexample: when ERROR is itself among the target statuses, the
target-membership check of the source runs FIRST, so a poll observing ERROR
makes `wait_for_status` return TRUE, not false, contradicting the claim
that observing ERROR always yields false. -/
theorem claim_C6_counterexample :
    wait_for_status pollsError [ERROR] 300 = (true, 1, 0) := by
  rfl

/-- C6 amended: whenever a status poll observes ERROR, and ERROR is not
itself among the target statuses, `wait_for_status` returns false
immediately: the observing poll (index n, elapsed time 5n, strictly before
the timeout) is the last poll issued — the poll count is n + 1 — and the
result is false. -/
theorem claim_C6_amended (polls : Nat → Option String) (targets : List String)
    (T n : Nat)
    (hpre : ∀ j, j < n → statusMem (polls j) targets = false ∧
      statusMem (polls j) [FAILED, ERROR] = false)
    (herr : polls n = some ERROR)
    (htgt : targets.contains ERROR = false)
    (hT : 5 * n < T) :
    wait_for_status polls targets T = ((false : Bool), n + 1, 5 * n) := by
  unfold wait_for_status
  have h5 : (0 : Nat) < 5 := by omega
  have hn : n < (T + 4) / 5 := by
    have hle := (Nat.le_div_iff_mul_le h5).mpr (show (n + 1) * 5 ≤ T + 4 by omega)
    omega
  have hgoal := waitLoop_error_at polls targets n ((T + 4) / 5) 0
    (fun j hj => by simpa using hpre j hj)
    (by simpa using herr) htgt hn
  simpa using hgoal

/-- Witness for the amended C6: ERROR observed on the very first poll while
RUNNING is awaited: false at once, a single poll, elapsed time 0. -/
theorem claim_C6_witness :
    wait_for_status pollsError [RUNNING] 300 = ((false : Bool), 1, 0) :=
  claim_C6_amended pollsError [RUNNING] 300 0
    (fun j hj => absurd hj (Nat.not_lt_zero j)) rfl (by decide) (by omega)

/-- The raw provider status strings the source ever compares against. -/
def recognizedStatuses : List String := [RUNNING, EXITED, STOPPED, FAILED, ERROR]

/-- C7 counterexample: `get_pod_status` performs NO mapping onto a closed
status variant: for the unrecognized raw value PENDING it returns the raw
string PENDING itself — not an UNKNOWN marker — so the claim that every
unmapped raw value maps to UNKNOWN is false of the code. -/
theorem claim_C7_counterexample :
    get_pod_status ⟨200, some ("PENDING")⟩ = some ("PENDING") ∧
    recognizedStatuses.contains ("PENDING") = false ∧
    get_pod_status ⟨200, some ("PENDING")⟩ ≠ some ("UNKNOWN") := by
  refine ⟨rfl, by decide, by decide⟩

/-- C7 amended: `get_pod_status` returns the provider's raw status string
unchanged (no closed-variant mapping exists in the code); nevertheless a
raw value outside the recognized set is never treated as a positive
terminal state: it fails the RUNNING check of start, the EXITED/STOPPED
check of stop, and every target check of the wait loop, which therefore
never returns true on it (it behaves as a transient state until the
timeout). -/
theorem claim_C7_amended (s : String)
    (hs : recognizedStatuses.contains s = false) :
    get_pod_status ⟨200, some s⟩ = some s ∧
    statusMem (some s) [RUNNING] = false ∧
    statusMem (some s) [EXITED, STOPPED] = false ∧
    statusMem (some s) [EXITED, STOPPED, RUNNING] = false ∧
    (∀ polls T, (∀ j, polls j = some s) →
      (wait_for_status polls [EXITED, STOPPED, RUNNING] T).1 = false) := by
  have hmem : s ∉ recognizedStatuses := by simpa [recognizedStatuses] using hs
  simp only [recognizedStatuses, List.mem_cons, List.not_mem_nil, or_false,
    not_or] at hmem
  obtain ⟨h1, h2, h3, h4, h5⟩ := hmem
  have hm3 : statusMem (some s) [EXITED, STOPPED, RUNNING] = false := by
    simp [statusMem, List.contains, h1, h2, h3, Ne.symm]
  refine ⟨rfl, ?_, ?_, hm3, ?_⟩
  · simp [statusMem, List.contains, h1, Ne.symm]
  · simp [statusMem, List.contains, h2, h3, Ne.symm]
  · intro polls T h
    exact waitLoop_no_target polls [EXITED, STOPPED, RUNNING]
      (fun j => by rw [h j]; exact hm3) ((T + 4) / 5) 0

/-- Witness for the amended C7 at the raw value PENDING. -/
theorem claim_C7_witness :
    get_pod_status ⟨200, some ("PENDING")⟩ = some ("PENDING") ∧
    statusMem (some ("PENDING")) [RUNNING] = false ∧
    statusMem (some ("PENDING")) [EXITED, STOPPED] = false ∧
    statusMem (some ("PENDING")) [EXITED, STOPPED, RUNNING] = false ∧
    (wait_for_status (fun _ => some ("PENDING")) [EXITED, STOPPED, RUNNING] 300).1
      = false :=
  have h := claim_C7_amended ("PENDING") (by decide)
  ⟨h.1, h.2.1, h.2.2.1, h.2.2.2.1,
    h.2.2.2.2 (fun _ => some ("PENDING")) 300 (fun _ => rfl)⟩

/-- C8 counterexample: restarting a STOPPED pod (status STOPPED on the two
initial reads, RUNNING once the start command lands) performs exactly ONE
mutation call, not two: the stop phase sees STOPPED and is an idempotent
no-op sending nothing, and only the start phase sends its start request.
The claim asserts two mutation calls for this scenario. -/
theorem claim_C8_counterexample :
    restart_pod envStopThenRun denvNone 30 false 0 = (true, 3, [ApiCall.start]) ∧
    (restart_pod envStopThenRun denvNone 30 false 0).2.2.length = 1 := by
  constructor <;> rfl

/-- C8 amended: restart performs stop followed by start; if stop fails,
restart returns failure with exactly the stop phase's trace, which never
contains a start or create request, so no start-phase mutation is ever
issued; if stop succeeds, restart continues with start on the next poll
index and concatenates the traces; and in the STOPPED-pod scenario the stop
phase is an idempotent no-op, so restart performs exactly one mutation call
(the start request), not two. -/
theorem claim_C8_amended :
    (∀ env denv P dn k, (stop_pod env k).1 = false →
      restart_pod env denv P dn k =
        ((false : Bool), (stop_pod env k).2.1, (stop_pod env k).2.2) ∧
      ApiCall.start ∉ (stop_pod env k).2.2 ∧
      (∀ ids, ApiCall.create ids ∉ (stop_pod env k).2.2)) ∧
    (∀ env denv P dn k, (stop_pod env k).1 = true →
      (restart_pod env denv P dn k).1 = (start_pod env denv P dn (stop_pod env k).2.1).1 ∧
      (restart_pod env denv P dn k).2.2 =
        (stop_pod env k).2.2 ++ (start_pod env denv P dn (stop_pod env k).2.1).2.2) ∧
    restart_pod envStopThenRun denvNone 30 false 0 = (true, 3, [ApiCall.start]) := by
  refine ⟨?_, ?_, rfl⟩
  · intro env denv P dn k h
    refine ⟨by simp [restart_pod, h], ?_, ?_⟩
    · rcases stop_pod_trace env k with h2 | h2 <;> simp [h2]
    · intro ids
      rcases stop_pod_trace env k with h2 | h2 <;> simp [h2]
  · intro env denv P dn k h
    constructor <;> simp [restart_pod, h]

/-- Witness for the amended C8: on the absent pod the stop phase fails, so
restart fails with the stop trace (no start request in it). -/
theorem claim_C8_witness :
    restart_pod envAbsent denvNone 30 false 0 =
      ((false : Bool), (stop_pod envAbsent 0).2.1, (stop_pod envAbsent 0).2.2) ∧
    ApiCall.start ∉ (stop_pod envAbsent 0).2.2 :=
  have h := claim_C8_amended.1 envAbsent denvNone 30 false 0 rfl
  ⟨h.1, h.2.1⟩

/-- C10: the status operation always returns success, even when the status
fetch fails and the status read is `none` (as on `envAbsent`, whose GET
answers 404); consequently the CLI status action computes exit code 0
regardless of whether a status could be retrieved. -/
theorem claim_C10 (env : Env) (k : Nat) :
    status_pod env k = (true, pollStatus env k) ∧
    exitCode (status_pod env k).1 = 0 ∧
    status_pod envAbsent k = (true, none) := by
  exact ⟨rfl, rfl, rfl⟩

end Ashoka
